import Mathlib

/-!
Verification of the QP_Backend question-paper generator (server.js).

The JavaScript source is shallowly embedded: the question bank is a list of
records, exceptions become `Except String`, and `Math.random()` draws become an
explicit tape of naturals (`List Nat`), each entry reduced modulo the size of
the candidate pool exactly as `Math.floor(Math.random() * n)` yields a value
in `[0, n)`.  All statements below are quantified over every possible tape, so
they hold for every realization of the randomness.
-/

deriving instance DecidableEq for Except

namespace QPBackend

/-- A normalized question record, as built by `processExcelData` in server.js
(fields in source order). -/
structure Question where
  id : Nat
  unit : Int
  question : String
  btLevel : String
  subjectCode : String := ""
  subject : String := ""
  branch : String := ""
  regulation : String := ""
  year : String := ""
  semester : String := ""
  month : String := ""
  imageUrl : String := ""
  deriving DecidableEq, Repr

/-- A loosely-typed spreadsheet row as produced by `XLSX.utils.sheet_to_json`;
`none` models an absent cell (JS `undefined`). -/
structure Row where
  btLevelRaw : Option String := none
  unit : Option String := none
  question : Option String := none
  subjectCode : Option String := none
  subject : Option String := none
  branch : Option String := none
  regulation : Option String := none
  year : Option String := none
  semester : Option String := none
  month : Option String := none
  imageUrl : Option String := none
  deriving DecidableEq, Repr

/-- JS `String.prototype.trim`: drop whitespace from both ends. -/
def jsTrim (s : String) : String :=
  String.mk (((s.toList.dropWhile Char.isWhitespace).reverse.dropWhile
    Char.isWhitespace).reverse)

/-- JS `String.prototype.startsWith`. -/
def jsStartsWith (s pre : String) : Bool :=
  s.toList.take pre.toList.length == pre.toList

/-- Decimal value of a digit run. -/
def digitsVal (ds : List Char) : Nat :=
  ds.foldl (fun a c => 10 * a + (c.toNat - 48)) 0

/-- JavaScript `parseInt` on a string (decimal): skip surrounding whitespace,
optional sign, then the maximal leading digit run; `none` models `NaN`. -/
def parseIntJS (s : String) : Option Int :=
  let core : List Char → Option Int := fun l =>
    let ds := l.takeWhile Char.isDigit
    if ds.isEmpty then none else some ((digitsVal ds : Nat) : Int)
  match (jsTrim s).toList with
  | '-' :: rest => (core rest).map (fun n => -n)
  | '+' :: rest => core rest
  | cs => core cs

/-- The literal head of a Google Drive share link, from the regex
`https:\/\/drive\.google\.com\/file\/d\/([^/]+)\/view` in `getDirectImageURL`. -/
def driveLinkHead : List Char := "https://drive.google.com/file/d/".toList

/-- Try to match the Drive regex at the current position: the link head, then a
nonempty run of non-slash characters (the id), then the literal `/view`. -/
def driveIdAt (cs : List Char) : Option String :=
  if cs.take driveLinkHead.length = driveLinkHead then
    let after := cs.drop driveLinkHead.length
    let idChars := after.takeWhile (fun c => c != '/')
    if idChars.isEmpty then none
    else if (after.drop idChars.length).take 5 = "/view".toList then
      some (String.mk idChars)
    else none
  else none

/-- Scan every start position, as a JS regex `match` does. -/
def searchDriveId : List Char → Option String
  | [] => none
  | c :: rest =>
    match driveIdAt (c :: rest) with
    | some i => some i
    | none => searchDriveId rest

/-- `getDirectImageURL` from server.js: rewrite a Drive view link to the
direct-content form, pass everything else through unchanged. -/
def getDirectImageURL (url : String) : String :=
  match searchDriveId url.toList with
  | some i => "https://drive.google.com/uc?export=view&id=" ++ i
  | none => url

/-- `.replace(/^L/i, '')`: strip one leading `L` or `l`. -/
def stripLHead (s : String) : String :=
  match s.toList with
  | 'L' :: rest => String.mk rest
  | 'l' :: rest => String.mk rest
  | _ => s

/-- The row-to-record mapping inside `processExcelData` (the `data.map`
callback, with `id = index + 1`). -/
def normalizeRow (index : Nat) (row : Row) : Question :=
  let btLevelRaw := jsTrim (row.btLevelRaw.getD "")
  let btLevel := stripLHead btLevelRaw
  { id := index + 1
    unit := (parseIntJS (row.unit.getD "")).getD 0
    question := row.question.getD ""
    btLevel := if btLevel = "" then "0" else btLevel
    subjectCode := row.subjectCode.getD ""
    subject := row.subject.getD ""
    branch := row.branch.getD ""
    regulation := row.regulation.getD ""
    year := row.year.getD ""
    semester := row.semester.getD ""
    month := row.month.getD ""
    imageUrl :=
      match row.imageUrl with
      | some u => if u = "" then "" else getDirectImageURL u
      | none => "" }

/-- `processExcelData` from server.js: normalize every row, then keep only
records with `unit >= 1 && unit <= 5 && btLevel !== '0'`. -/
def processExcelData (data : List Row) : List Question :=
  (data.enum.map (fun p => normalizeRow p.1 p.2)).filter
    (fun q => decide (1 ≤ q.unit) && decide (q.unit ≤ 5) && (q.btLevel != "0"))

/-- One entry of `unitRequirements`. -/
structure UnitReq where
  unit : Int
  minCount : Nat
  maxCount : Nat
  deriving DecidableEq, Repr

/-- One entry of `btlRequirements`: either `{ level, count }` or
`{ level: 'random', options, count }`. -/
inductive BtlReq where
  | fixed (level : String) (count : Nat)
  | randomFrom (options : List String) (count : Nat)
  deriving DecidableEq, Repr

/-- The `btlRequirements` for `maxBTL === 6` (Case i / Scheme A). -/
def schemeA : List BtlReq :=
  [.fixed "2" 2, .fixed "3" 2, .fixed "4" 1, .randomFrom ["1", "5", "6"] 1]

/-- The `btlRequirements` for `maxBTL === 4` (Case ii / Scheme B). -/
def schemeB : List BtlReq :=
  [.fixed "2" 2, .fixed "3" 2, .fixed "4" 2]

/-- Questions of a given unit and BTL: `availableByUnitAndBTL[u][btl]`
(the grouping loop preserves bank order, so this is a plain filter). -/
def availByUnitBTL (qb : List Question) (u : Int) (btl : String) : List Question :=
  qb.filter (fun q => q.unit == u && q.btLevel == btl)

/-- JS `Set` insertion: append if not yet present (first-occurrence order). -/
def addBTL (acc : List String) (s : String) : List String :=
  if s ∈ acc then acc else acc ++ [s]

/-- The `availableBTLs` set in insertion order: the grouping loop scans units
1..5 and, within each unit, the bank in order. -/
def availableBTLsList (qb : List Question) : List String :=
  (List.range' 1 5).foldl
    (fun acc u =>
      ((qb.filter (fun q => q.unit == (u : Int))).map Question.btLevel).foldl addBTL acc)
    []

/-- Step 2 of `generateQuestions`: `parseInt` every `btLevel`, dropping
non-positive / unparseable entries. -/
def btLevelsOf (qb : List Question) : List Int :=
  (qb.map (fun q => (parseIntJS q.btLevel).getD 0)).filter (fun n => decide (0 < n))

/-- `Math.max(...btLevels)`; `none` when the list is empty (the code throws
`No valid BTL levels found` in that case). -/
def maxBTLOf (qb : List Question) : Option Int :=
  match btLevelsOf qb with
  | [] => none
  | b :: bs => some (bs.foldl max b)

/-- The `Unsupported case` diagnostic of step 3 (JS array-to-string joins the
observed BTLs with commas). -/
def unsupportedMsg (maxBTL : Int) (btls : List String) : String :=
  "Unsupported case: Max BTL = " ++ toString maxBTL ++ " with multiple BTLs (" ++
    String.intercalate "," btls ++
    "). Only Case i (max BTL = 6), Case ii (max BTL = 4), or Case iii (single BTL) are supported."

/-- Step 3 of `generateQuestions`: resolve the BTL requirement scheme from the
bank's level distribution. -/
def resolveBtlRequirements (qb : List Question) : Except String (List BtlReq) :=
  match maxBTLOf qb with
  | none => .error "No valid BTL levels found in question bank"
  | some maxBTL =>
    if maxBTL = 6 then .ok schemeA
    else if maxBTL = 4 then .ok schemeB
    else
      let btls := availableBTLsList qb
      if btls.length = 1 then .ok [.fixed (btls.headD "") 6]
      else .error (unsupportedMsg maxBTL btls)

/-- `unitRequirements` for `'mid1'`. -/
def mid1Units : List UnitReq := [⟨1, 2, 3⟩, ⟨2, 2, 3⟩, ⟨3, 1, 1⟩]

/-- `unitRequirements` for `'mid2'`. -/
def mid2Units : List UnitReq := [⟨4, 2, 3⟩, ⟨5, 2, 3⟩, ⟨3, 1, 1⟩]

/-- `unitRequirements` for `'special'`. -/
def specialUnits : List UnitReq :=
  [⟨1, 1, 2⟩, ⟨2, 1, 2⟩, ⟨3, 1, 2⟩, ⟨4, 1, 2⟩, ⟨5, 1, 2⟩]

/-- Step 4 of `generateQuestions`: the `switch (paperType)`. -/
def resolveUnitRequirements (paperType : String) : Except String (List UnitReq) :=
  if paperType = "mid1" then .ok mid1Units
  else if paperType = "mid2" then .ok mid2Units
  else if paperType = "special" then .ok specialUnits
  else .error "Invalid paper type"

/-- The mutable locals of `selectQuestions`: `selectedQuestions`, `unitCount`,
`btlCount`, `remainingQuestions`, plus the randomness tape. -/
structure SelState where
  selected : List Question
  unitCount : Int → Nat
  btlCount : String → Nat
  remaining : List Question
  tape : List Nat

/-- Draw `Math.floor(Math.random() * n)` from the tape: the next tape entry
reduced mod `n` (an exhausted tape keeps drawing 0). -/
def nextRand (tape : List Nat) (n : Nat) : Nat × List Nat :=
  match tape with
  | [] => (0, [])
  | t :: ts => (t % n, ts)

/-- `unitCount[q.unit] < unitReqs.find(r => r.unit === q.unit).maxCount`;
the `find` cannot miss because `allowedUnits.includes(q.unit)` was already
checked, so the `none` arm is unreachable. -/
def underMax (ur : List UnitReq) (uc : Int → Nat) (u : Int) : Bool :=
  match ur.find? (fun r => r.unit == u) with
  | some r => decide (uc u < r.maxCount)
  | none => false

/-- The `available` pool inside `pickQuestion`: remaining questions in an
allowed unit, of the requested BTL, whose unit is not yet at `maxCount`. -/
def availList (ur : List UnitReq) (btl : String) (s : SelState) : List Question :=
  s.remaining.filter (fun q =>
    (ur.map UnitReq.unit).contains q.unit && q.btLevel == btl &&
      underMax ur s.unitCount q.unit)

/-- The state mutations performed when `pickQuestion` commits to question `q`:
remove it (by id) from the remaining pool and bump the unit and BTL counters. -/
def applyPick (s : SelState) (q : Question) (tape1 : List Nat) : SelState :=
  { selected := s.selected
    unitCount := fun u => if u = q.unit then s.unitCount u + 1 else s.unitCount u
    btlCount := fun b => if b = q.btLevel then s.btlCount b + 1 else s.btlCount b
    remaining := s.remaining.filter (fun r => r.id != q.id)
    tape := tape1 }

/-- `pickQuestion(btl)` from server.js: uniform random choice from the
`available` pool, or `null` when it is empty. -/
def pickQuestion (ur : List UnitReq) (btl : String) (s : SelState) :
    Option Question × SelState :=
  match availList ur btl s with
  | [] => (none, s)
  | q0 :: rest =>
    let p := nextRand s.tape (q0 :: rest).length
    let q := (q0 :: rest).getD p.1 q0
    (some q, applyPick s q p.2)

/-- The `while (count > 0)` loop of a fixed-level requirement: each iteration
picks one question of `level` and appends it to `selectedQuestions`. -/
def pickLoop (ur : List UnitReq) (level : String) : Nat → SelState → Except String SelState
  | 0, s => .ok s
  | n + 1, s =>
    match pickQuestion ur level s with
    | (some q, s1) => pickLoop ur level n { s1 with selected := s1.selected ++ [q] }
    | (none, _) => .error ("Failed to pick BTL " ++ level ++ " despite availability")

/-- The `while (count > 0)` loop of the `random` requirement: draw a level from
`randomBTLs` (computed once by the caller), then pick a question of it. -/
def randomPickLoop (ur : List UnitReq) (randomBTLs : List String) :
    Nat → SelState → Except String SelState
  | 0, s => .ok s
  | n + 1, s =>
    let p := nextRand s.tape randomBTLs.length
    let btl := randomBTLs.getD p.1 ""
    match pickQuestion ur btl { s with tape := p.2 } with
    | (some q, s1) =>
      randomPickLoop ur randomBTLs n { s1 with selected := s1.selected ++ [q] }
    | (none, _) => .error ("Insufficient questions for BTL " ++ btl ++ " in required units")

/-- The `for (const req of btlReqs)` loop of `selectQuestions`, including each
requirement's availability pre-check. -/
def runBtlReqs (qb : List Question) (ur : List UnitReq) :
    List BtlReq → SelState → Except String SelState
  | [], s => .ok s
  | .fixed level count :: rest, s =>
    let availableCount : Int :=
      ur.foldl
        (fun sum u =>
          sum + ((availByUnitBTL qb u.unit level).length : Int) - (s.btlCount level : Int))
        0
    if availableCount < (count : Int) then
      .error ("Insufficient questions for BTL " ++ level ++ " (need " ++ toString count ++
        ", found " ++ toString availableCount ++ ") in required units")
    else
      match pickLoop ur level count s with
      | .ok s1 => runBtlReqs qb ur rest s1
      | .error e => .error e
  | .randomFrom options count :: rest, s =>
    let randomBTLs := options.filter (fun btl =>
      ur.any (fun u => decide ((availByUnitBTL qb u.unit btl).length > s.btlCount btl)))
    if randomBTLs.isEmpty then
      .error "No questions available for BTL [L1, L5, L6] in required units"
    else
      match randomPickLoop ur randomBTLs count s with
      | .ok s1 => runBtlReqs qb ur rest s1
      | .error e => .error e

/-- The final `for (const req of unitReqs)` validation loop: `none` means every
participating unit reached its `minCount`, otherwise the first diagnostic. -/
def validateUnitMins (uc : Int → Nat) : List UnitReq → Option String
  | [] => none
  | r :: rest =>
    let u := r.unit
    let c := uc r.unit
    let m := r.minCount
    if c < m then some ("Unit " ++ toString u ++ " has " ++ toString c ++
      " questions, needs at least " ++ toString m)
    else validateUnitMins uc rest

/-- `selectQuestions(btlRequirements, unitRequirements)` from server.js. -/
def selectQuestions (qb : List Question) (btlReqs : List BtlReq) (ur : List UnitReq)
    (tape : List Nat) : Except String (List Question) :=
  match runBtlReqs qb ur btlReqs ⟨[], fun _ => 0, fun _ => 0, qb, tape⟩ with
  | .error e => .error e
  | .ok s =>
    match validateUnitMins s.unitCount ur with
    | some e => .error e
    | none => .ok s.selected

/-- The size-guard diagnostic at the top of `generateQuestions`. -/
def insufficientMsg : String :=
  "Insufficient questions in question bank. At least 6 questions are required."

/-- `generateQuestions(paperType)` from server.js, with the process-wide
`questionBank` passed explicitly and exceptions as `Except.error`. -/
def generateQuestions (questionBank : Option (List Question)) (paperType : String)
    (tape : List Nat) : Except String (List Question) :=
  match questionBank with
  | none => .error insufficientMsg
  | some qb =>
    if qb.length < 6 then .error insufficientMsg
    else
      match resolveBtlRequirements qb with
      | .error e => .error e
      | .ok btlReqs =>
        match resolveUnitRequirements paperType with
        | .error e => .error e
        | .ok ur =>
          match selectQuestions qb btlReqs ur tape with
          | .error e => .error e
          | .ok selected =>
            if selected.length ≠ 6 then
              .error "Failed to select exactly 6 questions with required BTL and unit constraints"
            else .ok selected

/-- The per-question projection in the `/api/generate` response. -/
structure QuestionView where
  question : String
  imageUrl : String
  btLevel : String
  unit : Int
  deriving DecidableEq, Repr

/-- The `paperDetails` block of the `/api/generate` response. -/
structure PaperDetails where
  subject : String
  subjectCode : String
  branch : String
  regulation : String
  year : String
  semester : String
  deriving DecidableEq, Repr

/-- Successful `/api/generate` payload. -/
structure GenSuccess where
  questions : List QuestionView
  paperDetails : PaperDetails
  deriving DecidableEq, Repr

/-- Body of a `/api/generate` response. -/
inductive GenBody where
  | success (payload : GenSuccess)
  | failure (error : String)
  deriving DecidableEq, Repr

/-- The process-wide mutable state: `let questionBank = null`. -/
structure ServerState where
  questionBank : Option (List Question)
  deriving DecidableEq, Repr

/-- Placeholder for `selectedQuestions[0]` (unreachable: the list has length 6). -/
def defaultQuestion : Question := ⟨0, 0, "", "", "", "", "", "", "", "", "", ""⟩

/-- The `/api/generate` handler: returns the (unchanged) server state together
with the HTTP status and body. -/
def handleGenerate (st : ServerState) (paperType : String) (tape : List Nat) :
    ServerState × Nat × GenBody :=
  match st.questionBank with
  | none => (st, 400, .failure "No questions available. Please upload an Excel file first.")
  | some _ =>
    match generateQuestions st.questionBank paperType tape with
    | .error e => (st, 500, .failure ("Error generating questions: " ++ e))
    | .ok sel =>
      let q0 := sel.headD defaultQuestion
      (st, 200, .success
        { questions := sel.map (fun q => ⟨q.question, q.imageUrl, q.btLevel, q.unit⟩)
          paperDetails := ⟨q0.subject, q0.subjectCode, q0.branch, q0.regulation, q0.year,
            q0.semester⟩ })

/-- Body of a `/api/upload` response. -/
inductive UploadBody where
  | success (message : String) (questionCount : Nat)
  | failure (error : String)
  deriving DecidableEq, Repr

/-- The `/api/upload` handler on an accepted file whose sheet parsed to `rows`
(`none` models a missing file): the bank is replaced wholesale. -/
def handleUpload (st : ServerState) (file : Option (List Row)) :
    ServerState × Nat × UploadBody :=
  match file with
  | none => (st, 400, .failure "No file uploaded")
  | some rows =>
    let qb := processExcelData rows
    (⟨some qb⟩, 200, .success "File processed successfully" qb.length)

/-- The outcome of the axios fetch inside `/api/image-proxy-base64`:
an HTTP response with an optional `content-type` header and base64-encoded
body, or any thrown error (network failure, non-2xx status, ...). -/
inductive ProxyOutcome where
  | httpSuccess (contentType : Option String) (bodyBase64 : String)
  | httpFailure
  deriving DecidableEq, Repr

/-- A `/api/image-proxy-base64` response: status plus the JSON body, which is
either `{ dataUrl }` or `{ error }` shaped. -/
structure ProxyResponse where
  status : Nat
  dataUrl : Option String
  error : Option String
  deriving DecidableEq, Repr

/-- The fixed placeholder data URL from the catch branch of the proxy. -/
def placeholderDataUrl : String :=
  "data:image/png;base64,iVBORw0KGgoAAAANSUhEUgAAADIAAAAyCAYAAAAeP4ixAAAACXBIWXMAAAsTAAALEwEAmpwYAAAAvElEQVR4nO3YQQqDMBAF0L/KnW+/Q6+xu1oSLeI4DAgAAAAAAAAA7rZpm7Zt2/9eNpvNZrPZdrsdANxut9vt9nq9PgAwGo1Go9FoNBr9MabX6/U2m01mM5vNZnO5XC6X+wDAXC6Xy+VyuVwul8sFAKPRaDQajUaj0Wg0Go1Goz8A8Hg8Ho/H4/F4PB6Px+MBgMFoNBqNRqPRaDQajUaj0Wg0Go1Goz8AAAAAAAAA7rYBAK3eVREcAAAAAElFTkSuQmCC"

/-- The `/api/image-proxy-base64` handler for a request that did supply a
`url`, as a function of the fetch outcome.  A missing `content-type` header
makes `contentType.startsWith` throw, which the catch turns into the
placeholder; a present non-image content type returns a 400 error body. -/
def imageProxyHandler (outcome : ProxyOutcome) : ProxyResponse :=
  match outcome with
  | .httpFailure => ⟨200, some placeholderDataUrl, none⟩
  | .httpSuccess none _ => ⟨200, some placeholderDataUrl, none⟩
  | .httpSuccess (some ct) body =>
    if jsStartsWith ct "image/" then
      ⟨200, some ("data:" ++ ct ++ ";base64," ++ body), none⟩
    else
      ⟨400, none, some "URL does not point to an image"⟩

/-- Number of selected questions belonging to unit `u`. -/
def unitCountIn (sel : List Question) (u : Int) : Nat :=
  (sel.filter (fun q => q.unit == u)).length

/-- Number of selected questions carrying BTL label `L`. -/
def levelCountIn (sel : List Question) (L : String) : Nat :=
  (sel.filter (fun q => q.btLevel == L)).length

/-- Invariant carried by the selection loop: everything selected or remaining
comes from the bank, selected ids are distinct and disjoint from the remaining
pool, and `unitCount` tracks the per-unit tally, which is zero for units
outside `ur` and capped by `maxCount` for units inside it. -/
structure StateInv (qb : List Question) (ur : List UnitReq) (s : SelState) : Prop where
  remainingSub : ∀ q ∈ s.remaining, q ∈ qb
  selectedSub : ∀ q ∈ s.selected, q ∈ qb
  idsNodup : (s.selected.map Question.id).Nodup
  freshIds : ∀ q ∈ s.remaining, ∀ p ∈ s.selected, q.id ≠ p.id
  countEq : ∀ u : Int, s.unitCount u = unitCountIn s.selected u
  countZero : ∀ u : Int, ur.find? (fun r => r.unit == u) = none → s.unitCount u = 0
  countMax : ∀ (u : Int) (r : UnitReq),
    ur.find? (fun r2 => r2.unit == u) = some r → s.unitCount u ≤ r.maxCount

/-- The selected list decomposes into consecutive segments, one per BTL
requirement, of the required length and level. -/
def SegMatch : List BtlReq → List Question → Prop
  | [], seg => seg = []
  | BtlReq.fixed level count :: rest, seg =>
    ∃ a b, seg = a ++ b ∧ a.length = count ∧ (∀ x ∈ a, x.btLevel = level) ∧
      SegMatch rest b
  | BtlReq.randomFrom options count :: rest, seg =>
    ∃ a b, seg = a ++ b ∧ a.length = count ∧ (∀ x ∈ a, x.btLevel ∈ options) ∧
      SegMatch rest b

/-- Shorthand for building concrete questions in examples. -/
def mkQ (i : Nat) (u : Int) (L : String) : Question :=
  { id := i, unit := u, question := "", btLevel := L }

/-- A concrete bank whose max BTL is 4 (Scheme B) on which `'mid1'` succeeds. -/
def wbankB : List Question :=
  [mkQ 1 1 "2", mkQ 2 1 "2", mkQ 3 2 "3", mkQ 4 2 "3", mkQ 5 3 "4", mkQ 6 1 "4"]

/-- A concrete bank whose max BTL is 6 (Scheme A) on which `'mid1'` succeeds. -/
def wbankA : List Question :=
  [mkQ 1 1 "2", mkQ 2 1 "2", mkQ 3 2 "3", mkQ 4 2 "3", mkQ 5 3 "4", mkQ 6 2 "6"]

/-- A concrete bank with the unsupported distribution `{2, 5}` (max BTL 5,
two distinct levels). -/
def wbank25 : List Question :=
  [mkQ 1 1 "2", mkQ 2 1 "2", mkQ 3 1 "2", mkQ 4 1 "2", mkQ 5 1 "2", mkQ 6 2 "5"]

/-- A concrete bank in which every question is at the single level `"2"`
(Scheme C applies). -/
def cbankSingle2 : List Question :=
  [mkQ 1 1 "2", mkQ 2 1 "2", mkQ 3 1 "2", mkQ 4 1 "2", mkQ 5 1 "2", mkQ 6 1 "2"]

/-- A concrete bank in which every question is at the single level `"6"`. -/
def wbank6 : List Question :=
  [mkQ 1 1 "6", mkQ 2 1 "6", mkQ 3 1 "6", mkQ 4 1 "6", mkQ 5 1 "6", mkQ 6 1 "6"]

/-- A six-question bank whose two distinct levels are both unparseable. -/
def cbankUnparseable : List Question :=
  [mkQ 1 1 "abc", mkQ 2 1 "abc", mkQ 3 1 "abc", mkQ 4 1 "abc", mkQ 5 1 "abc",
    mkQ 6 2 "xyz"]

/-- A two-question bank with the unsupported distribution `{2, 5}`. -/
def cbankTiny25 : List Question := [mkQ 1 1 "2", mkQ 2 2 "5"]

/-- A one-question bank at the single level `"6"`. -/
def cbankTiny6 : List Question := [mkQ 1 1 "6"]

/-- A spreadsheet row with a valid unit but a non-numeric BTL label. -/
def exRowAbc : Row := { btLevelRaw := some "abc", unit := some "2" }

/-- A spreadsheet row with every cell absent. -/
def exRowBlank : Row := {}

section Lemmas

lemma getD_mem_or_eq {α : Type} (l : List α) (n : Nat) (d : α) :
    l.getD n d ∈ l ∨ l.getD n d = d := by
  induction l generalizing n with
  | nil => right; cases n <;> rfl
  | cons a t ih =>
    cases n with
    | zero => left; simp [List.getD]
    | succ m =>
      rcases ih m with h | h
      · left
        rw [List.getD_cons_succ]
        exact List.mem_cons_of_mem _ h
      · right
        rw [List.getD_cons_succ]
        exact h

lemma getD_mem_of_lt {α : Type} {l : List α} {n : Nat} (d : α) (h : n < l.length) :
    l.getD n d ∈ l := by
  rw [List.getD_eq_getElem l d h]
  exact List.getElem_mem h

lemma nextRand_lt {tape : List Nat} {n : Nat} (hn : 0 < n) : (nextRand tape n).1 < n := by
  cases tape with
  | nil => simpa [nextRand] using hn
  | cons t ts => simpa [nextRand] using Nat.mod_lt t hn

@[simp] lemma applyPick_selected (s : SelState) (q : Question) (t : List Nat) :
    (applyPick s q t).selected = s.selected := rfl

@[simp] lemma applyPick_remaining (s : SelState) (q : Question) (t : List Nat) :
    (applyPick s q t).remaining = s.remaining.filter (fun r => r.id != q.id) := rfl

@[simp] lemma applyPick_unitCount (s : SelState) (q : Question) (t : List Nat) :
    (applyPick s q t).unitCount =
      fun u => if u = q.unit then s.unitCount u + 1 else s.unitCount u := rfl

@[simp] lemma applyPick_btlCount (s : SelState) (q : Question) (t : List Nat) :
    (applyPick s q t).btlCount =
      fun b => if b = q.btLevel then s.btlCount b + 1 else s.btlCount b := rfl

lemma mem_availList {ur : List UnitReq} {btl : String} {s : SelState} {q : Question}
    (h : q ∈ availList ur btl s) :
    q ∈ s.remaining ∧ q.unit ∈ ur.map UnitReq.unit ∧ q.btLevel = btl ∧
      underMax ur s.unitCount q.unit = true := by
  unfold availList at h
  rw [List.mem_filter] at h
  obtain ⟨hrem, hp⟩ := h
  simp only [Bool.and_eq_true] at hp
  obtain ⟨⟨hc, hb⟩, hm⟩ := hp
  refine ⟨hrem, ?_, ?_, hm⟩
  · simpa using hc
  · simpa using hb

lemma pickQuestion_some {ur : List UnitReq} {btl : String} {s : SelState}
    {q : Question} {s1 : SelState} (h : pickQuestion ur btl s = (some q, s1)) :
    q ∈ availList ur btl s ∧ ∃ tape1, s1 = applyPick s q tape1 := by
  unfold pickQuestion at h
  split at h
  · simp at h
  · rename_i q0 rest heq
    simp only [Prod.mk.injEq, Option.some.injEq] at h
    obtain ⟨hq, hs1⟩ := h
    subst hq
    refine ⟨?_, _, hs1.symm⟩
    rw [heq]
    rcases getD_mem_or_eq (q0 :: rest) (nextRand s.tape (q0 :: rest).length).1 q0 with
      hm | he
    · exact hm
    · rw [he]
      exact List.mem_cons_self q0 rest

lemma underMax_lt {ur : List UnitReq} {uc : Int → Nat} {u : Int} {r : UnitReq}
    (hf : ur.find? (fun r2 => r2.unit == u) = some r)
    (h : underMax ur uc u = true) : uc u < r.maxCount := by
  unfold underMax at h
  rw [hf] at h
  simpa using h

lemma find?_isSome_of_mem_units {ur : List UnitReq} {u : Int}
    (h : u ∈ ur.map UnitReq.unit) :
    ∃ r, ur.find? (fun r2 => r2.unit == u) = some r := by
  rw [List.mem_map] at h
  obtain ⟨r0, hr0, hru⟩ := h
  have hex : ∃ x ∈ ur, (fun r2 : UnitReq => r2.unit == u) x = true :=
    ⟨r0, hr0, by simp [hru]⟩
  have := List.find?_isSome.mpr hex
  exact Option.isSome_iff_exists.mp this

lemma unitCountIn_nil (u : Int) : unitCountIn [] u = 0 := rfl

lemma unitCountIn_append (l1 l2 : List Question) (u : Int) :
    unitCountIn (l1 ++ l2) u = unitCountIn l1 u + unitCountIn l2 u := by
  simp [unitCountIn, List.filter_append]

lemma unitCountIn_pos_of_mem {sel : List Question} {q : Question} (hq : q ∈ sel) :
    0 < unitCountIn sel q.unit := by
  unfold unitCountIn
  have hmem : q ∈ sel.filter (fun x => x.unit == q.unit) :=
    List.mem_filter.mpr ⟨hq, by simp⟩
  exact List.length_pos_of_mem hmem

lemma stateInv_init (qb : List Question) (ur : List UnitReq) (tape : List Nat) :
    StateInv qb ur ⟨[], fun _ => 0, fun _ => 0, qb, tape⟩ := by
  refine ⟨fun q h => h, ?_, ?_, ?_, ?_, ?_, ?_⟩
  · intro q h
    cases h
  · exact List.nodup_nil
  · intro q _ p hp
    cases hp
  · intro u
    rfl
  · intro u _
    rfl
  · intro u r _
    exact Nat.zero_le _

lemma stateInv_setTape {qb : List Question} {ur : List UnitReq} {s : SelState}
    (h : StateInv qb ur s) (t : List Nat) : StateInv qb ur { s with tape := t } :=
  ⟨h.remainingSub, h.selectedSub, h.idsNodup, h.freshIds, h.countEq, h.countZero,
    h.countMax⟩

lemma stateInv_step {qb : List Question} {ur : List UnitReq} {btl : String}
    {s : SelState} {q : Question} {s1 : SelState}
    (hInv : StateInv qb ur s) (h : pickQuestion ur btl s = (some q, s1)) :
    StateInv qb ur { s1 with selected := s1.selected ++ [q] } ∧
      q.btLevel = btl ∧ q ∈ qb ∧ s1.selected = s.selected := by
  obtain ⟨hmemA, tape1, hs1⟩ := pickQuestion_some h
  obtain ⟨hrem, hunits, hbtl, hmax⟩ := mem_availList hmemA
  subst hs1
  simp only [applyPick_selected]
  refine ⟨⟨?_, ?_, ?_, ?_, ?_, ?_, ?_⟩, hbtl, hInv.remainingSub q hrem, trivial⟩
  · intro x hx
    simp only [applyPick_remaining] at hx
    exact hInv.remainingSub x (List.mem_of_mem_filter hx)
  · intro x hx
    simp only [List.mem_append, List.mem_singleton] at hx
    rcases hx with hx | rfl
    · exact hInv.selectedSub x hx
    · exact hInv.remainingSub x hrem
  · have hq_not : q.id ∉ s.selected.map Question.id := by
      intro hcontra
      rw [List.mem_map] at hcontra
      obtain ⟨p, hp, hpid⟩ := hcontra
      exact hInv.freshIds q hrem p hp hpid.symm
    simp only [List.map_append, List.map_cons, List.map_nil]
    exact List.Nodup.append hInv.idsNodup (List.nodup_singleton _)
      (by
        intro a ha hb
        simp only [List.mem_singleton] at hb
        subst hb
        exact hq_not ha)
  · intro x hx p hp
    simp only [applyPick_remaining] at hx
    rw [List.mem_filter] at hx
    obtain ⟨hxrem, hxid⟩ := hx
    simp only [List.mem_append, List.mem_singleton] at hp
    rcases hp with hp | rfl
    · exact hInv.freshIds x hxrem p hp
    · simpa using hxid
  · intro u
    simp only [applyPick_unitCount, unitCountIn_append]
    by_cases hu : u = q.unit
    · subst hu
      simp [unitCountIn, hInv.countEq q.unit]
    · have hqu : (q.unit == u) = false := by
        simp only [beq_eq_false_iff_ne]
        exact fun hc => hu hc.symm
      have hz : unitCountIn [q] u = 0 := by
        simp [unitCountIn, hqu]
      rw [if_neg hu, hInv.countEq u, hz]
      omega
  · intro u hfind
    simp only [applyPick_unitCount]
    by_cases hu : u = q.unit
    · subst hu
      obtain ⟨r, hr⟩ := find?_isSome_of_mem_units hunits
      rw [hr] at hfind
      cases hfind
    · rw [if_neg hu]
      exact hInv.countZero u hfind
  · intro u r hfind
    simp only [applyPick_unitCount]
    by_cases hu : u = q.unit
    · subst hu
      have hlt := underMax_lt hfind hmax
      rw [if_pos rfl]
      omega
    · rw [if_neg hu]
      exact hInv.countMax u r hfind

lemma pickLoop_ok {qb : List Question} {ur : List UnitReq} {level : String} :
    ∀ (n : Nat) (s s1 : SelState), StateInv qb ur s →
      pickLoop ur level n s = .ok s1 →
      StateInv qb ur s1 ∧
        ∃ seg, s1.selected = s.selected ++ seg ∧ seg.length = n ∧
          ∀ x ∈ seg, x.btLevel = level := by
  intro n
  induction n with
  | zero =>
    intro s s1 hInv h
    simp only [pickLoop, Except.ok.injEq] at h
    subst h
    exact ⟨hInv, [], by simp, rfl, by simp⟩
  | succ m ih =>
    intro s s1 hInv h
    unfold pickLoop at h
    rcases hp : pickQuestion ur level s with ⟨oq, s2⟩
    rw [hp] at h
    cases oq with
    | none => simp at h
    | some q =>
      obtain ⟨hInv2, hbtl, hqb, hsel2⟩ := stateInv_step hInv hp
      obtain ⟨hInv1, seg, hsel, hlen, hlev⟩ := ih _ _ hInv2 h
      refine ⟨hInv1, q :: seg, ?_, by simp [hlen], ?_⟩
      · rw [hsel]
        simp only [hsel2]
        simp
      · intro x hx
        rcases List.mem_cons.mp hx with rfl | hx
        · exact hbtl
        · exact hlev x hx

lemma randomPickLoop_ok {qb : List Question} {ur : List UnitReq}
    {randomBTLs : List String} (hne : randomBTLs ≠ []) :
    ∀ (n : Nat) (s s1 : SelState), StateInv qb ur s →
      randomPickLoop ur randomBTLs n s = .ok s1 →
      StateInv qb ur s1 ∧
        ∃ seg, s1.selected = s.selected ++ seg ∧ seg.length = n ∧
          ∀ x ∈ seg, x.btLevel ∈ randomBTLs := by
  intro n
  induction n with
  | zero =>
    intro s s1 hInv h
    simp only [randomPickLoop, Except.ok.injEq] at h
    subst h
    exact ⟨hInv, [], by simp, rfl, by simp⟩
  | succ m ih =>
    intro s s1 hInv h
    simp only [randomPickLoop] at h
    have hbtlmem : randomBTLs.getD (nextRand s.tape randomBTLs.length).1 "" ∈ randomBTLs :=
      getD_mem_of_lt "" (nextRand_lt (List.length_pos.mpr hne))
    rcases hp : pickQuestion ur (randomBTLs.getD (nextRand s.tape randomBTLs.length).1 "")
        { s with tape := (nextRand s.tape randomBTLs.length).2 } with ⟨oq, s2⟩
    rw [hp] at h
    cases oq with
    | none => simp at h
    | some q =>
      obtain ⟨hInv2, hbtl, hqb, hsel2⟩ :=
        stateInv_step (stateInv_setTape hInv (nextRand s.tape randomBTLs.length).2) hp
      obtain ⟨hInv1, seg, hsel, hlen, hlev⟩ := ih _ _ hInv2 h
      refine ⟨hInv1, q :: seg, ?_, by simp [hlen], ?_⟩
      · rw [hsel]
        simp only [hsel2]
        simp
      · intro x hx
        rcases List.mem_cons.mp hx with rfl | hx
        · rw [hbtl]
          exact hbtlmem
        · exact hlev x hx

lemma runBtlReqs_ok {qb : List Question} {ur : List UnitReq} :
    ∀ (reqs : List BtlReq) (s s1 : SelState), StateInv qb ur s →
      runBtlReqs qb ur reqs s = .ok s1 →
      StateInv qb ur s1 ∧
        ∃ seg, s1.selected = s.selected ++ seg ∧ SegMatch reqs seg := by
  intro reqs
  induction reqs with
  | nil =>
    intro s s1 hInv h
    simp only [runBtlReqs, Except.ok.injEq] at h
    subst h
    exact ⟨hInv, [], by simp, rfl⟩
  | cons req rest ih =>
    intro s s1 hInv h
    cases req with
    | fixed level count =>
      simp only [runBtlReqs] at h
      split at h
      · simp at h
      · rcases hpl : pickLoop ur level count s with e | s2
        · rw [hpl] at h
          simp at h
        · rw [hpl] at h
          obtain ⟨hInvA, segA, hselA, hlenA, hlevA⟩ := pickLoop_ok count s s2 hInv hpl
          obtain ⟨hInvB, segB, hselB, hmB⟩ := ih s2 s1 hInvA h
          refine ⟨hInvB, segA ++ segB, ?_, ?_⟩
          · rw [hselB, hselA, List.append_assoc]
          · exact ⟨segA, segB, rfl, hlenA, hlevA, hmB⟩
    | randomFrom options count =>
      simp only [runBtlReqs] at h
      split at h
      · simp at h
      · rename_i hcond
        have hne : options.filter (fun btl =>
            ur.any (fun u =>
              decide ((availByUnitBTL qb u.unit btl).length > s.btlCount btl))) ≠ [] := by
          intro hnil
          rw [hnil] at hcond
          simp at hcond
        rcases hrp : randomPickLoop ur
            (options.filter (fun btl =>
              ur.any (fun u =>
                decide ((availByUnitBTL qb u.unit btl).length > s.btlCount btl))))
            count s with e | s2
        · rw [hrp] at h
          simp at h
        · rw [hrp] at h
          obtain ⟨hInvA, segA, hselA, hlenA, hlevA⟩ :=
            randomPickLoop_ok hne count s s2 hInv hrp
          obtain ⟨hInvB, segB, hselB, hmB⟩ := ih s2 s1 hInvA h
          refine ⟨hInvB, segA ++ segB, ?_, ?_⟩
          · rw [hselB, hselA, List.append_assoc]
          · refine ⟨segA, segB, rfl, hlenA, ?_, hmB⟩
            intro x hx
            exact List.mem_of_mem_filter (hlevA x hx)

lemma validateUnitMins_none {uc : Int → Nat} :
    ∀ l : List UnitReq, validateUnitMins uc l = none →
      ∀ r ∈ l, r.minCount ≤ uc r.unit := by
  intro l
  induction l with
  | nil =>
    intro _ r hr
    cases hr
  | cons a t ih =>
    intro h r hr
    simp only [validateUnitMins] at h
    split at h
    · simp at h
    · rename_i hcm
      rcases List.mem_cons.mp hr with rfl | hrt
      · omega
      · exact ih h r hrt

lemma selectQuestions_ok {qb : List Question} {btlReqs : List BtlReq}
    {ur : List UnitReq} {tape : List Nat} {sel : List Question}
    (h : selectQuestions qb btlReqs ur tape = .ok sel) :
    ∃ s : SelState, s.selected = sel ∧ StateInv qb ur s ∧
      (∀ r ∈ ur, r.minCount ≤ s.unitCount r.unit) ∧ SegMatch btlReqs sel := by
  unfold selectQuestions at h
  split at h
  · simp at h
  · rename_i s hrun
    split at h
    · simp at h
    · rename_i hval
      simp only [Except.ok.injEq] at h
      obtain ⟨hInv, seg, hsel, hSeg⟩ :=
        runBtlReqs_ok btlReqs _ s (stateInv_init qb ur tape) hrun
      simp only [List.nil_append] at hsel
      refine ⟨s, h, hInv, validateUnitMins_none ur hval, ?_⟩
      rw [← h, hsel]
      exact hSeg

lemma generateQuestions_ok {bank : Option (List Question)} {pt : String}
    {tape : List Nat} {sel : List Question}
    (h : generateQuestions bank pt tape = .ok sel) :
    ∃ qb btlReqs ur, bank = some qb ∧ 6 ≤ qb.length ∧
      resolveBtlRequirements qb = .ok btlReqs ∧
      resolveUnitRequirements pt = .ok ur ∧
      selectQuestions qb btlReqs ur tape = .ok sel ∧ sel.length = 6 := by
  cases bank with
  | none => simp [generateQuestions] at h
  | some qb =>
    simp only [generateQuestions] at h
    split at h
    · simp at h
    · rename_i hlen
      split at h
      · simp at h
      · rename_i btlReqs hB
        split at h
        · simp at h
        · rename_i ur hU
          split at h
          · simp at h
          · rename_i sel2 hS
            split at h
            · simp at h
            · rename_i h6
              simp only [Except.ok.injEq] at h
              subst h
              exact ⟨qb, btlReqs, ur, rfl, by omega, hB, hU, hS, by omega⟩

lemma find?_mid1_none {u : Int} (h1 : u ≠ 1) (h2 : u ≠ 2) (h3 : u ≠ 3) :
    mid1Units.find? (fun r => r.unit == u) = none := by
  have e1 : ((1 : Int) == u) = false := beq_eq_false_iff_ne.mpr (Ne.symm h1)
  have e2 : ((2 : Int) == u) = false := beq_eq_false_iff_ne.mpr (Ne.symm h2)
  have e3 : ((3 : Int) == u) = false := beq_eq_false_iff_ne.mpr (Ne.symm h3)
  simp [mid1Units, List.find?, e1, e2, e3]

lemma find?_mid2_none {u : Int} (h3 : u ≠ 3) (h4 : u ≠ 4) (h5 : u ≠ 5) :
    mid2Units.find? (fun r => r.unit == u) = none := by
  have e3 : ((3 : Int) == u) = false := beq_eq_false_iff_ne.mpr (Ne.symm h3)
  have e4 : ((4 : Int) == u) = false := beq_eq_false_iff_ne.mpr (Ne.symm h4)
  have e5 : ((5 : Int) == u) = false := beq_eq_false_iff_ne.mpr (Ne.symm h5)
  simp [mid2Units, List.find?, e3, e4, e5]

lemma find?_special_none {u : Int} (h1 : u ≠ 1) (h2 : u ≠ 2) (h3 : u ≠ 3)
    (h4 : u ≠ 4) (h5 : u ≠ 5) :
    specialUnits.find? (fun r => r.unit == u) = none := by
  have e1 : ((1 : Int) == u) = false := beq_eq_false_iff_ne.mpr (Ne.symm h1)
  have e2 : ((2 : Int) == u) = false := beq_eq_false_iff_ne.mpr (Ne.symm h2)
  have e3 : ((3 : Int) == u) = false := beq_eq_false_iff_ne.mpr (Ne.symm h3)
  have e4 : ((4 : Int) == u) = false := beq_eq_false_iff_ne.mpr (Ne.symm h4)
  have e5 : ((5 : Int) == u) = false := beq_eq_false_iff_ne.mpr (Ne.symm h5)
  simp [specialUnits, List.find?, e1, e2, e3, e4, e5]

lemma count_units_three {sel : List Question} {a b c : Int}
    (h : ∀ q ∈ sel, q.unit = a ∨ q.unit = b ∨ q.unit = c)
    (hab : a ≠ b) (hac : a ≠ c) (hbc : b ≠ c) :
    unitCountIn sel a + unitCountIn sel b + unitCountIn sel c = sel.length := by
  induction sel with
  | nil => simp [unitCountIn]
  | cons q t ih =>
    have hq := h q (List.mem_cons_self q t)
    have iht := ih (fun x hx => h x (List.mem_cons_of_mem q hx))
    simp only [unitCountIn, List.filter_cons] at *
    rcases hq with hq | hq | hq <;> rw [hq] <;>
      simp [beq_iff_eq, hab, hac, hbc, Ne.symm hab, Ne.symm hac, Ne.symm hbc] <;>
      omega

lemma count_units_five {sel : List Question}
    (h : ∀ q ∈ sel, q.unit = 1 ∨ q.unit = 2 ∨ q.unit = 3 ∨ q.unit = 4 ∨ q.unit = 5) :
    unitCountIn sel 1 + unitCountIn sel 2 + unitCountIn sel 3 + unitCountIn sel 4 +
      unitCountIn sel 5 = sel.length := by
  induction sel with
  | nil => simp [unitCountIn]
  | cons q t ih =>
    have hq := h q (List.mem_cons_self q t)
    have iht := ih (fun x hx => h x (List.mem_cons_of_mem q hx))
    simp only [unitCountIn, List.filter_cons] at *
    rcases hq with hq | hq | hq | hq | hq <;> rw [hq] <;> simp <;> omega

lemma levelCountIn_append (l1 l2 : List Question) (L : String) :
    levelCountIn (l1 ++ l2) L = levelCountIn l1 L + levelCountIn l2 L := by
  simp [levelCountIn]

lemma levelCountIn_of_all {l : List Question} {L : String}
    (h : ∀ x ∈ l, x.btLevel = L) : levelCountIn l L = l.length := by
  unfold levelCountIn
  rw [show l.filter (fun q => q.btLevel == L) = l from
    List.filter_eq_self.mpr (fun x hx => by simp [h x hx])]

lemma levelCountIn_of_none {l : List Question} {L : String}
    (h : ∀ x ∈ l, x.btLevel ≠ L) : levelCountIn l L = 0 := by
  unfold levelCountIn
  rw [show l.filter (fun q => q.btLevel == L) = [] from
    List.filter_eq_nil_iff.mpr (fun x hx => by simp [h x hx])]
  rfl

lemma foldl_max_all {bs : List Int} {n : Int} (h : ∀ x ∈ bs, x = n) :
    bs.foldl max n = n := by
  induction bs with
  | nil => rfl
  | cons b t ih =>
    rw [List.foldl_cons, h b (List.mem_cons_self b t), max_self]
    exact ih (fun x hx => h x (List.mem_cons_of_mem b hx))

lemma btLevelsOf_const {qb : List Question} {L : String} {n : Int}
    (hL : ∀ q ∈ qb, q.btLevel = L) (hp : parseIntJS L = some n) (hn : 0 < n) :
    btLevelsOf qb = qb.map (fun _ => n) := by
  unfold btLevelsOf
  have hmap : qb.map (fun q => (parseIntJS q.btLevel).getD 0) =
      qb.map (fun _ => n) := by
    apply List.map_congr_left
    intro q hq
    rw [hL q hq, hp]
    rfl
  rw [hmap]
  apply List.filter_eq_self.mpr
  intro x hx
  rw [List.mem_map] at hx
  obtain ⟨q, hq, hxq⟩ := hx
  subst hxq
  simpa using hn

lemma maxBTLOf_const {qb : List Question} {L : String} {n : Int}
    (hL : ∀ q ∈ qb, q.btLevel = L) (hp : parseIntJS L = some n) (hn : 0 < n)
    (hne : qb ≠ []) : maxBTLOf qb = some n := by
  unfold maxBTLOf
  rw [btLevelsOf_const hL hp hn]
  cases qb with
  | nil => exact absurd rfl hne
  | cons q t =>
    show some ((t.map (fun _ => n)).foldl max n) = some n
    rw [foldl_max_all]
    intro x hx
    rw [List.mem_map] at hx
    obtain ⟨y, hy, hxy⟩ := hx
    exact hxy.symm

lemma availByUnitBTL_empty {qb : List Question} {L level : String}
    (hL : ∀ q ∈ qb, q.btLevel = L) (hne : L ≠ level) (u : Int) :
    availByUnitBTL qb u level = [] := by
  unfold availByUnitBTL
  apply List.filter_eq_nil_iff.mpr
  intro q hq
  simp [hL q hq, hne]

lemma runBtlReqs_fixed_missing {qb : List Question} {ur : List UnitReq}
    {level : String} {count : Nat} {rest : List BtlReq} {s : SelState}
    (havail : ∀ u : Int, availByUnitBTL qb u level = [])
    (hbc : s.btlCount level = 0) (hc : 0 < count) :
    runBtlReqs qb ur (.fixed level count :: rest) s =
      .error ("Insufficient questions for BTL " ++ level ++ " (need " ++
        toString count ++ ", found " ++ toString (0 : Int) ++ ") in required units") := by
  have hfold : ∀ (l : List UnitReq) (acc : Int),
      l.foldl (fun sum u =>
        sum + ((availByUnitBTL qb u.unit level).length : Int) -
          (s.btlCount level : Int)) acc = acc := by
    intro l
    induction l with
    | nil => intro acc; rfl
    | cons r t ih =>
      intro acc
      rw [List.foldl_cons, havail r.unit]
      have hstep : acc + (([] : List Question).length : Int) -
          ((s.btlCount level : Nat) : Int) = acc := by
        rw [hbc]
        simp
      rw [hstep]
      exact ih acc
  simp only [runBtlReqs]
  rw [hfold]
  rw [if_pos (by exact_mod_cast hc)]

end Lemmas

/-- C1: for every successful call to `generateQuestions` (any paper type, any
bank, any randomness), the returned selection contains exactly 6 question
records, each a member of the current question bank, with pairwise-distinct
identifiers. -/
theorem C1_six_distinct_bank_members (bank : Option (List Question))
    (paperType : String) (tape : List Nat) (sel : List Question)
    (h : generateQuestions bank paperType tape = Except.ok sel) :
    ∃ qb, bank = some qb ∧ sel.length = 6 ∧ (∀ q ∈ sel, q ∈ qb) ∧
      (sel.map Question.id).Nodup := by
  obtain ⟨qb, btlReqs, ur, rfl, hlen, hB, hU, hS, h6⟩ := generateQuestions_ok h
  obtain ⟨s, hsel, hInv, hmins, hSeg⟩ := selectQuestions_ok hS
  refine ⟨qb, rfl, h6, ?_, ?_⟩
  · rw [← hsel]
    exact hInv.selectedSub
  · rw [← hsel]
    exact hInv.idsNodup

/-- Witness for C1 at a concrete bank, paper type and tape. -/
theorem C1_six_distinct_bank_members_witness :
    ∃ qb, (some wbankB : Option (List Question)) = some qb ∧ wbankB.length = 6 ∧
      (∀ q ∈ wbankB, q ∈ qb) ∧ (wbankB.map Question.id).Nodup :=
  C1_six_distinct_bank_members (some wbankB) "mid1" [] wbankB (by decide)

/-- C2: for every successful generation, the per-unit counts of the six
selected questions satisfy the fixed table for the requested paper type:
`mid1` gives unit 1 in [2,3], unit 2 in [2,3], unit 3 exactly 1, all other
units 0, summing to 6; `mid2` likewise with units 4, 5, 3; `special` gives
units 1..5 each in [1,2], summing to 6. -/
theorem C2_paper_type_unit_counts (qb : List Question) (paperType : String)
    (tape : List Nat) (sel : List Question)
    (h : generateQuestions (some qb) paperType tape = Except.ok sel) :
    (paperType = "mid1" →
      (2 ≤ unitCountIn sel 1 ∧ unitCountIn sel 1 ≤ 3) ∧
      (2 ≤ unitCountIn sel 2 ∧ unitCountIn sel 2 ≤ 3) ∧
      unitCountIn sel 3 = 1 ∧
      (∀ u : Int, u ≠ 1 → u ≠ 2 → u ≠ 3 → unitCountIn sel u = 0) ∧
      unitCountIn sel 1 + unitCountIn sel 2 + unitCountIn sel 3 = 6) ∧
    (paperType = "mid2" →
      (2 ≤ unitCountIn sel 4 ∧ unitCountIn sel 4 ≤ 3) ∧
      (2 ≤ unitCountIn sel 5 ∧ unitCountIn sel 5 ≤ 3) ∧
      unitCountIn sel 3 = 1 ∧
      (∀ u : Int, u ≠ 3 → u ≠ 4 → u ≠ 5 → unitCountIn sel u = 0) ∧
      unitCountIn sel 4 + unitCountIn sel 5 + unitCountIn sel 3 = 6) ∧
    (paperType = "special" →
      (1 ≤ unitCountIn sel 1 ∧ unitCountIn sel 1 ≤ 2) ∧
      (1 ≤ unitCountIn sel 2 ∧ unitCountIn sel 2 ≤ 2) ∧
      (1 ≤ unitCountIn sel 3 ∧ unitCountIn sel 3 ≤ 2) ∧
      (1 ≤ unitCountIn sel 4 ∧ unitCountIn sel 4 ≤ 2) ∧
      (1 ≤ unitCountIn sel 5 ∧ unitCountIn sel 5 ≤ 2) ∧
      unitCountIn sel 1 + unitCountIn sel 2 + unitCountIn sel 3 + unitCountIn sel 4 +
        unitCountIn sel 5 = 6) := by
  obtain ⟨qb2, btlReqs, ur, heq, hlen, hB, hU, hS, h6⟩ := generateQuestions_ok h
  rw [Option.some.injEq] at heq
  subst heq
  obtain ⟨s, hsel, hInv, hmins, hSeg⟩ := selectQuestions_ok hS
  have hcnt : ∀ u : Int, unitCountIn sel u = s.unitCount u := by
    intro u
    rw [hInv.countEq u, hsel]
  refine ⟨?_, ?_, ?_⟩
  · rintro rfl
    have hur : ur = mid1Units := by
      have h2 := hU.symm.trans
        (show resolveUnitRequirements "mid1" = Except.ok mid1Units from rfl)
      simpa using h2
    subst hur
    have hz : ∀ u : Int, u ≠ 1 → u ≠ 2 → u ≠ 3 → unitCountIn sel u = 0 := by
      intro u h1 h2 h3
      rw [hcnt u]
      exact hInv.countZero u (find?_mid1_none h1 h2 h3)
    have hmem3 : ∀ q ∈ sel, q.unit = 1 ∨ q.unit = 2 ∨ q.unit = 3 := by
      intro q hq
      by_contra hcon
      push_neg at hcon
      obtain ⟨n1, n2, n3⟩ := hcon
      have hzero := hz q.unit n1 n2 n3
      have hpos := unitCountIn_pos_of_mem hq
      omega
    have hsum := count_units_three hmem3 (by decide) (by decide) (by decide)
    have hmin1 : 2 ≤ s.unitCount 1 := hmins ⟨1, 2, 3⟩ (by simp [mid1Units])
    have hmin2 : 2 ≤ s.unitCount 2 := hmins ⟨2, 2, 3⟩ (by simp [mid1Units])
    have hmin3 : 1 ≤ s.unitCount 3 := hmins ⟨3, 1, 1⟩ (by simp [mid1Units])
    have hmax1 : s.unitCount 1 ≤ 3 := hInv.countMax 1 ⟨1, 2, 3⟩ rfl
    have hmax2 : s.unitCount 2 ≤ 3 := hInv.countMax 2 ⟨2, 2, 3⟩ rfl
    have hmax3 : s.unitCount 3 ≤ 1 := hInv.countMax 3 ⟨3, 1, 1⟩ rfl
    have e1 := hcnt 1
    have e2 := hcnt 2
    have e3 := hcnt 3
    refine ⟨⟨by omega, by omega⟩, ⟨by omega, by omega⟩, by omega, hz, by omega⟩
  · rintro rfl
    have hur : ur = mid2Units := by
      have h2 := hU.symm.trans
        (show resolveUnitRequirements "mid2" = Except.ok mid2Units from rfl)
      simpa using h2
    subst hur
    have hz : ∀ u : Int, u ≠ 3 → u ≠ 4 → u ≠ 5 → unitCountIn sel u = 0 := by
      intro u h3 h4 h5
      rw [hcnt u]
      exact hInv.countZero u (find?_mid2_none h3 h4 h5)
    have hmem3 : ∀ q ∈ sel, q.unit = 4 ∨ q.unit = 5 ∨ q.unit = 3 := by
      intro q hq
      by_contra hcon
      push_neg at hcon
      obtain ⟨n4, n5, n3⟩ := hcon
      have hzero := hz q.unit n3 n4 n5
      have hpos := unitCountIn_pos_of_mem hq
      omega
    have hsum := count_units_three hmem3 (by decide) (by decide) (by decide)
    have hmin4 : 2 ≤ s.unitCount 4 := hmins ⟨4, 2, 3⟩ (by simp [mid2Units])
    have hmin5 : 2 ≤ s.unitCount 5 := hmins ⟨5, 2, 3⟩ (by simp [mid2Units])
    have hmin3 : 1 ≤ s.unitCount 3 := hmins ⟨3, 1, 1⟩ (by simp [mid2Units])
    have hmax4 : s.unitCount 4 ≤ 3 := hInv.countMax 4 ⟨4, 2, 3⟩ rfl
    have hmax5 : s.unitCount 5 ≤ 3 := hInv.countMax 5 ⟨5, 2, 3⟩ rfl
    have hmax3 : s.unitCount 3 ≤ 1 := hInv.countMax 3 ⟨3, 1, 1⟩ rfl
    have e3 := hcnt 3
    have e4 := hcnt 4
    have e5 := hcnt 5
    refine ⟨⟨by omega, by omega⟩, ⟨by omega, by omega⟩, by omega, hz, by omega⟩
  · rintro rfl
    have hur : ur = specialUnits := by
      have h2 := hU.symm.trans
        (show resolveUnitRequirements "special" = Except.ok specialUnits from rfl)
      simpa using h2
    subst hur
    have hz : ∀ u : Int, u ≠ 1 → u ≠ 2 → u ≠ 3 → u ≠ 4 → u ≠ 5 →
        unitCountIn sel u = 0 := by
      intro u h1 h2 h3 h4 h5
      rw [hcnt u]
      exact hInv.countZero u (find?_special_none h1 h2 h3 h4 h5)
    have hmem5 : ∀ q ∈ sel,
        q.unit = 1 ∨ q.unit = 2 ∨ q.unit = 3 ∨ q.unit = 4 ∨ q.unit = 5 := by
      intro q hq
      by_contra hcon
      push_neg at hcon
      obtain ⟨n1, n2, n3, n4, n5⟩ := hcon
      have hzero := hz q.unit n1 n2 n3 n4 n5
      have hpos := unitCountIn_pos_of_mem hq
      omega
    have hsum := count_units_five hmem5
    have hmin1 : 1 ≤ s.unitCount 1 := hmins ⟨1, 1, 2⟩ (by simp [specialUnits])
    have hmin2 : 1 ≤ s.unitCount 2 := hmins ⟨2, 1, 2⟩ (by simp [specialUnits])
    have hmin3 : 1 ≤ s.unitCount 3 := hmins ⟨3, 1, 2⟩ (by simp [specialUnits])
    have hmin4 : 1 ≤ s.unitCount 4 := hmins ⟨4, 1, 2⟩ (by simp [specialUnits])
    have hmin5 : 1 ≤ s.unitCount 5 := hmins ⟨5, 1, 2⟩ (by simp [specialUnits])
    have hmax1 : s.unitCount 1 ≤ 2 := hInv.countMax 1 ⟨1, 1, 2⟩ rfl
    have hmax2 : s.unitCount 2 ≤ 2 := hInv.countMax 2 ⟨2, 1, 2⟩ rfl
    have hmax3 : s.unitCount 3 ≤ 2 := hInv.countMax 3 ⟨3, 1, 2⟩ rfl
    have hmax4 : s.unitCount 4 ≤ 2 := hInv.countMax 4 ⟨4, 1, 2⟩ rfl
    have hmax5 : s.unitCount 5 ≤ 2 := hInv.countMax 5 ⟨5, 1, 2⟩ rfl
    have e1 := hcnt 1
    have e2 := hcnt 2
    have e3 := hcnt 3
    have e4 := hcnt 4
    have e5 := hcnt 5
    exact ⟨⟨by omega, by omega⟩, ⟨by omega, by omega⟩, ⟨by omega, by omega⟩,
      ⟨by omega, by omega⟩, ⟨by omega, by omega⟩, by omega⟩

/-- Witness for C2 at a concrete Scheme-A bank with paper type `'mid1'`. -/
theorem C2_paper_type_unit_counts_witness :
    (2 ≤ unitCountIn wbankA 1 ∧ unitCountIn wbankA 1 ≤ 3) ∧
    (2 ≤ unitCountIn wbankA 2 ∧ unitCountIn wbankA 2 ≤ 3) ∧
    unitCountIn wbankA 3 = 1 ∧
    (∀ u : Int, u ≠ 1 → u ≠ 2 → u ≠ 3 → unitCountIn wbankA u = 0) ∧
    unitCountIn wbankA 1 + unitCountIn wbankA 2 + unitCountIn wbankA 3 = 6 :=
  (C2_paper_type_unit_counts wbankA "mid1" [] wbankA (by decide)).1 rfl

/-- C3: for every bank whose maximum cognitive level (as an integer) is 6,
every successful generation contains exactly 2 questions at level `"2"`,
2 at `"3"`, 1 at `"4"`, and exactly 1 at some level in `{"1","5","6"}`. -/
theorem C3_schemeA_level_quotas (qb : List Question) (paperType : String)
    (tape : List Nat) (sel : List Question)
    (hmax : maxBTLOf qb = some 6)
    (h : generateQuestions (some qb) paperType tape = Except.ok sel) :
    levelCountIn sel "2" = 2 ∧ levelCountIn sel "3" = 2 ∧ levelCountIn sel "4" = 1 ∧
      levelCountIn sel "1" + levelCountIn sel "5" + levelCountIn sel "6" = 1 := by
  obtain ⟨qb2, btlReqs, ur, heq, hlen, hB, hU, hS, h6⟩ := generateQuestions_ok h
  rw [Option.some.injEq] at heq
  subst heq
  have hresA : resolveBtlRequirements qb = .ok schemeA := by
    unfold resolveBtlRequirements
    rw [hmax]
    simp
  have hbtlA : btlReqs = schemeA := by
    have h2 := hB.symm.trans hresA
    simpa using h2
  subst hbtlA
  obtain ⟨s, hsel, hInv, hmins, hSeg⟩ := selectQuestions_ok hS
  simp only [schemeA, SegMatch] at hSeg
  obtain ⟨a1, b1, rfl, hl1, hv1, a2, b2, rfl, hl2, hv2, a3, b3, rfl, hl3, hv3,
    a4, b4, rfl, hl4, hv4, hb4⟩ := hSeg
  subst hb4
  obtain ⟨x3, rfl⟩ := List.length_eq_one.mp hl3
  obtain ⟨x4, rfl⟩ := List.length_eq_one.mp hl4
  have hx3 : x3.btLevel = "4" := hv3 x3 (List.mem_singleton_self x3)
  have hx4 : x4.btLevel = "1" ∨ x4.btLevel = "5" ∨ x4.btLevel = "6" := by
    simpa using hv4 x4 (List.mem_singleton_self x4)
  have z1 : ∀ L : String, L ≠ "2" → levelCountIn a1 L = 0 := fun L hL =>
    levelCountIn_of_none (fun x hx => by rw [hv1 x hx]; exact Ne.symm hL)
  have z2 : ∀ L : String, L ≠ "3" → levelCountIn a2 L = 0 := fun L hL =>
    levelCountIn_of_none (fun x hx => by rw [hv2 x hx]; exact Ne.symm hL)
  have z3 : ∀ L : String, L ≠ "4" → levelCountIn [x3] L = 0 := fun L hL =>
    levelCountIn_of_none (fun x hx => by
      rw [List.eq_of_mem_singleton hx, hx3]
      exact Ne.symm hL)
  have z4 : ∀ L : String, x4.btLevel ≠ L → levelCountIn [x4] L = 0 := fun L hL =>
    levelCountIn_of_none (fun x hx => by
      rw [List.eq_of_mem_singleton hx]
      exact hL)
  have p1 : levelCountIn a1 "2" = 2 := by rw [levelCountIn_of_all hv1, hl1]
  have p2 : levelCountIn a2 "3" = 2 := by rw [levelCountIn_of_all hv2, hl2]
  have p3 : levelCountIn [x3] "4" = 1 :=
    levelCountIn_of_all (fun x hx => by rw [List.eq_of_mem_singleton hx]; exact hx3)
  have p4 : levelCountIn [x4] x4.btLevel = 1 :=
    levelCountIn_of_all (fun x hx => by rw [List.eq_of_mem_singleton hx])
  simp only [List.append_nil, levelCountIn_append]
  refine ⟨?_, ?_, ?_, ?_⟩
  · rw [p1, z2 "2" (by decide), z3 "2" (by decide),
      z4 "2" (by rcases hx4 with hx | hx | hx <;> rw [hx] <;> decide)]
  · rw [p2, z1 "3" (by decide), z3 "3" (by decide),
      z4 "3" (by rcases hx4 with hx | hx | hx <;> rw [hx] <;> decide)]
  · rw [p3, z1 "4" (by decide), z2 "4" (by decide),
      z4 "4" (by rcases hx4 with hx | hx | hx <;> rw [hx] <;> decide)]
  · rw [z1 "1" (by decide), z2 "1" (by decide), z3 "1" (by decide),
      z1 "5" (by decide), z2 "5" (by decide), z3 "5" (by decide),
      z1 "6" (by decide), z2 "6" (by decide), z3 "6" (by decide)]
    rcases hx4 with hx | hx | hx
    · rw [show levelCountIn [x4] "1" = 1 from hx ▸ p4,
        z4 "5" (by rw [hx]; decide), z4 "6" (by rw [hx]; decide)]
    · rw [show levelCountIn [x4] "5" = 1 from hx ▸ p4,
        z4 "1" (by rw [hx]; decide), z4 "6" (by rw [hx]; decide)]
    · rw [show levelCountIn [x4] "6" = 1 from hx ▸ p4,
        z4 "1" (by rw [hx]; decide), z4 "5" (by rw [hx]; decide)]

/-- Witness for C3 at a concrete Scheme-A bank. -/
theorem C3_schemeA_level_quotas_witness :
    levelCountIn wbankA "2" = 2 ∧ levelCountIn wbankA "3" = 2 ∧
      levelCountIn wbankA "4" = 1 ∧
      levelCountIn wbankA "1" + levelCountIn wbankA "5" + levelCountIn wbankA "6" = 1 :=
  C3_schemeA_level_quotas wbankA "mid1" [] wbankA (by decide) (by decide)

/-- C8: `generateQuestions` never mutates the question bank: the `/api/generate`
handler returns the server state unchanged whether it succeeds, fails a
constraint, or finds no bank at all. -/
theorem C8_generate_preserves_bank (st : ServerState) (paperType : String)
    (tape : List Nat) : (handleGenerate st paperType tape).1 = st := by
  unfold handleGenerate
  split
  · rfl
  · split
    · rfl
    · rfl

/-- C9: for every non-null bank with fewer than six questions,
`generateQuestions` fails with the fixed insufficiency message for every paper
type (even invalid ones) and every randomness, before any scheme resolution or
paper-type validation. -/
theorem C9_insufficient_bank_first (qb : List Question) (paperType : String)
    (tape : List Nat) (h : qb.length < 6) :
    generateQuestions (some qb) paperType tape =
      Except.error "Insufficient questions in question bank. At least 6 questions are required." := by
  simp [generateQuestions, if_pos h, insufficientMsg]

/-- Witness for C9: the empty bank with an invalid paper type. -/
theorem C9_insufficient_bank_first_witness :
    ([] : List Question).length < 6 ∧
      generateQuestions (some []) "bogus" [] =
        Except.error "Insufficient questions in question bank. At least 6 questions are required." :=
  ⟨by decide, C9_insufficient_bank_first [] "bogus" [] (by decide)⟩

/-- C4 counterexample: a row whose cognitive level `"abc"` is unparseable
(`parseInt` gives `NaN`) is NOT absent from the bank — its normalized record
is kept, with the non-numeric label intact.  This refutes the claim that rows
with unparseable cognitive levels are dropped. -/
theorem C4_counterexample_unparseable_level_kept :
    normalizeRow 0 exRowAbc ∈ processExcelData [exRowAbc] ∧
      (normalizeRow 0 exRowAbc).btLevel = "abc" ∧
      parseIntJS (normalizeRow 0 exRowAbc).btLevel = none := by
  refine ⟨?_, by decide, by decide⟩
  decide

/-- C4 (amended): every record produced by `processExcelData` has unit in
1..5 and a cognitive-level label different from `"0"`; any record whose unit
falls outside 1..5 or whose label is `"0"` is absent from the bank; and a
blank or zero raw level (absent cell, empty string, `"0"`, `"L0"`) normalizes
to the label `"0"` (hence is dropped).  Rows whose raw level is merely
non-numeric (e.g. `"abc"`) keep their label and are NOT dropped. -/
theorem C4_amended_normalization (data : List Row) :
    (∀ q ∈ processExcelData data, 1 ≤ q.unit ∧ q.unit ≤ 5 ∧ q.btLevel ≠ "0") ∧
    (∀ q : Question, (q.unit < 1 ∨ 5 < q.unit ∨ q.btLevel = "0") →
      q ∉ processExcelData data) ∧
    (∀ (i : Nat) (r : Row),
      r.btLevelRaw = none ∨ r.btLevelRaw = some "" ∨ r.btLevelRaw = some "0" ∨
        r.btLevelRaw = some "L0" →
      (normalizeRow i r).btLevel = "0") := by
  refine ⟨?_, ?_, ?_⟩
  · intro q hq
    unfold processExcelData at hq
    rw [List.mem_filter] at hq
    obtain ⟨_, hp⟩ := hq
    simp only [Bool.and_eq_true, decide_eq_true_eq, bne_iff_ne] at hp
    exact ⟨hp.1.1, hp.1.2, hp.2⟩
  · intro q hbad hq
    unfold processExcelData at hq
    rw [List.mem_filter] at hq
    obtain ⟨_, hp⟩ := hq
    simp only [Bool.and_eq_true, decide_eq_true_eq, bne_iff_ne] at hp
    rcases hbad with hb | hb | hb
    · omega
    · omega
    · exact hp.2 hb
  · intro i r hr
    rcases hr with hr | hr | hr | hr <;> simp [normalizeRow, hr, jsTrim, stripLHead]

/-- Witness for C4 (amended): a fully blank row normalizes to label `"0"`. -/
theorem C4_amended_normalization_witness :
    (normalizeRow 0 exRowBlank).btLevel = "0" :=
  (C4_amended_normalization []).2.2 0 exRowBlank (Or.inl rfl)

/-- C5 counterexample: a successful fetch with the non-image content type
`text/html` is answered with a 400 error-shaped body, not the 200 placeholder
data URL the claim describes. -/
theorem C5_counterexample_non_image_is_400 :
    imageProxyHandler (.httpSuccess (some "text/html") "QUJD") =
      ⟨400, none, some "URL does not point to an image"⟩ ∧
    (imageProxyHandler (.httpSuccess (some "text/html") "QUJD")).status ≠ 200 ∧
    (imageProxyHandler (.httpSuccess (some "text/html") "QUJD")).dataUrl ≠
      some placeholderDataUrl := by
  refine ⟨by decide, by decide, by decide⟩

/-- C5 (amended): on any fetch failure (thrown error, including a missing
content-type header) the proxy answers 200 with the fixed placeholder in the
success `{ dataUrl }` shape; but a successfully fetched non-image content type
is answered 400 with an `{ error }` body, so that case IS distinguishable by
status code. -/
theorem C5_amended_proxy_fallback (ct body : String)
    (h : jsStartsWith ct "image/" = false) :
    imageProxyHandler ProxyOutcome.httpFailure =
      ⟨200, some placeholderDataUrl, none⟩ ∧
    imageProxyHandler (.httpSuccess none body) =
      ⟨200, some placeholderDataUrl, none⟩ ∧
    imageProxyHandler (.httpSuccess (some ct) body) =
      ⟨400, none, some "URL does not point to an image"⟩ := by
  refine ⟨rfl, rfl, ?_⟩
  simp [imageProxyHandler, h]

/-- Witness for C5 (amended) at the content type `text/html`. -/
theorem C5_amended_proxy_fallback_witness :
    jsStartsWith "text/html" "image/" = false ∧
    imageProxyHandler ProxyOutcome.httpFailure =
      ⟨200, some placeholderDataUrl, none⟩ ∧
    imageProxyHandler (.httpSuccess none "QUJD") =
      ⟨200, some placeholderDataUrl, none⟩ ∧
    imageProxyHandler (.httpSuccess (some "text/html") "QUJD") =
      ⟨400, none, some "URL does not point to an image"⟩ :=
  ⟨by decide, C5_amended_proxy_fallback "text/html" "QUJD" (by decide)⟩

/-- C6 counterexample: with a well-formed six-question single-level bank and
the invalid paper type `"foo"`, the `/api/generate` handler answers with HTTP
status 500 (not a 4xx status as the claim asserts), wrapping the
`Invalid paper type` diagnostic. -/
theorem C6_counterexample_invalid_type_is_500 :
    (handleGenerate ⟨some cbankSingle2⟩ "foo" []).2.1 = 500 ∧
    ¬ (handleGenerate ⟨some cbankSingle2⟩ "foo" []).2.1 < 500 ∧
    (handleGenerate ⟨some cbankSingle2⟩ "foo" []).2.2 =
      GenBody.failure "Error generating questions: Invalid paper type" := by
  refine ⟨by decide, by decide, by decide⟩

/-- C6 (amended): an invalid paper-type token is rejected with the descriptive
message `Invalid paper type` and no state change, but at status 500 (the
handler catches the throw and answers 5xx), and only after the bank-size and
BTL-scheme checks have passed. -/
theorem C6_amended_invalid_paper_type (st : ServerState) (qb : List Question)
    (paperType : String) (tape : List Nat) (btlReqs : List BtlReq)
    (hbank : st.questionBank = some qb) (hlen : 6 ≤ qb.length)
    (hres : resolveBtlRequirements qb = Except.ok btlReqs)
    (h1 : paperType ≠ "mid1") (h2 : paperType ≠ "mid2") (h3 : paperType ≠ "special") :
    handleGenerate st paperType tape =
      (st, 500, GenBody.failure "Error generating questions: Invalid paper type") := by
  have hUnit : resolveUnitRequirements paperType = .error "Invalid paper type" := by
    unfold resolveUnitRequirements
    rw [if_neg h1, if_neg h2, if_neg h3]
  have hgen : generateQuestions (some qb) paperType tape =
      .error "Invalid paper type" := by
    simp only [generateQuestions]
    rw [if_neg (by omega)]
    simp only [hres, hUnit]
  simp [handleGenerate, hbank, hgen]

/-- Witness for C6 (amended) at a concrete bank and the token `"foo"`. -/
theorem C6_amended_invalid_paper_type_witness :
    handleGenerate ⟨some cbankSingle2⟩ "foo" [] =
      (⟨some cbankSingle2⟩, 500,
        GenBody.failure "Error generating questions: Invalid paper type") :=
  C6_amended_invalid_paper_type ⟨some cbankSingle2⟩ cbankSingle2 "foo" []
    [BtlReq.fixed "2" 6] rfl (by decide) (by decide) (by decide) (by decide)
    (by decide)

/-- C7 counterexample: two banks whose level distribution matches none of the
three schemes, yet whose generation error does not name `Unsupported case`:
a six-question bank whose two levels are both unparseable fails with the
`No valid BTL levels` diagnostic, and a two-question bank with levels `{2,5}`
fails with the bank-size diagnostic. -/
theorem C7_counterexample_other_failures :
    (maxBTLOf cbankUnparseable = none ∧
      (availableBTLsList cbankUnparseable).length = 2 ∧
      generateQuestions (some cbankUnparseable) "mid1" [] =
        Except.error "No valid BTL levels found in question bank") ∧
    (maxBTLOf cbankTiny25 = some 5 ∧
      (availableBTLsList cbankTiny25).length = 2 ∧
      generateQuestions (some cbankTiny25) "mid1" [] =
        Except.error "Insufficient questions in question bank. At least 6 questions are required.") := by
  refine ⟨⟨by decide, by decide, by decide⟩, ⟨by decide, by decide, by decide⟩⟩

/-- C7 (amended): for every bank of at least six questions whose maximum
parsed cognitive level is defined but is neither 6 nor 4, and whose
distinct-observed-level count differs from 1, generation fails — for every
paper type and every randomness — with the diagnostic that names
`Unsupported case`, the offending max level, and the comma-joined list of
observed levels; in particular it never returns any selection. -/
theorem C7_unsupported_distribution (qb : List Question) (paperType : String)
    (tape : List Nat) (m : Int) (hlen : 6 ≤ qb.length)
    (hmax : maxBTLOf qb = some m) (h6 : m ≠ 6) (h4 : m ≠ 4)
    (hsz : (availableBTLsList qb).length ≠ 1) :
    generateQuestions (some qb) paperType tape =
      Except.error (unsupportedMsg m (availableBTLsList qb)) ∧
    ∀ sel, generateQuestions (some qb) paperType tape ≠ Except.ok sel := by
  have hres : resolveBtlRequirements qb =
      .error (unsupportedMsg m (availableBTLsList qb)) := by
    unfold resolveBtlRequirements
    rw [hmax]
    simp [h6, h4, hsz]
  have hgen : generateQuestions (some qb) paperType tape =
      Except.error (unsupportedMsg m (availableBTLsList qb)) := by
    simp only [generateQuestions]
    rw [if_neg (by omega)]
    simp only [hres]
  refine ⟨hgen, ?_⟩
  intro sel hcontra
  rw [hgen] at hcontra
  cases hcontra

/-- Witness for C7 at a concrete bank with levels `{2, 5}` (max level 5). -/
theorem C7_unsupported_distribution_witness :
    (generateQuestions (some wbank25) "mid1" [] =
      Except.error (unsupportedMsg 5 (availableBTLsList wbank25)) ∧
    ∀ sel, generateQuestions (some wbank25) "mid1" [] ≠ Except.ok sel) :=
  C7_unsupported_distribution wbank25 "mid1" [] 5 (by decide) (by decide)
    (by decide) (by decide) (by decide)

/-- C10 counterexample: for an all-level-6 bank, generation does not always
fail on the level-`"2"` quota as the claim states: an invalid paper type fails
on `Invalid paper type` (after Scheme A is resolved), and a bank smaller than
six questions fails on the size guard before any scheme resolution. -/
theorem C10_counterexample_other_failures :
    generateQuestions (some wbank6) "foo" [] =
      Except.error "Invalid paper type" ∧
    generateQuestions (some cbankTiny6) "mid1" [] =
      Except.error "Insufficient questions in question bank. At least 6 questions are required." := by
  refine ⟨by decide, by decide⟩

/-- C10 (amended): for banks of at least six questions and a valid paper type,
the max-level checks precede the single-level check, so a bank whose only
level is `"6"` resolves to Scheme A (and one whose only level is `"4"` to
Scheme B), never to the Scheme C single-level quota; generation then always
fails on the level-`"2"` quota.  Scheme C (a single-element requirement list)
is reachable only when the sole level present is neither `"4"` nor `"6"`. -/
theorem C10_scheme_precedence (qb : List Question) (paperType : String)
    (tape : List Nat)
    (hpt : paperType = "mid1" ∨ paperType = "mid2" ∨ paperType = "special")
    (hlen : 6 ≤ qb.length) :
    ((∀ q ∈ qb, q.btLevel = "6") →
      resolveBtlRequirements qb = Except.ok schemeA ∧
      generateQuestions (some qb) paperType tape =
        Except.error "Insufficient questions for BTL 2 (need 2, found 0) in required units") ∧
    ((∀ q ∈ qb, q.btLevel = "4") →
      resolveBtlRequirements qb = Except.ok schemeB ∧
      generateQuestions (some qb) paperType tape =
        Except.error "Insufficient questions for BTL 2 (need 2, found 0) in required units") ∧
    (∀ (L : String) (btlReqs : List BtlReq),
      (∀ q ∈ qb, q.btLevel = L) → resolveBtlRequirements qb = Except.ok btlReqs →
      btlReqs.length = 1 → L ≠ "4" ∧ L ≠ "6") := by
  have hne : qb ≠ [] := by
    intro h0
    rw [h0] at hlen
    simp at hlen
  obtain ⟨ur, hU⟩ : ∃ ur, resolveUnitRequirements paperType = .ok ur := by
    rcases hpt with rfl | rfl | rfl
    · exact ⟨mid1Units, rfl⟩
    · exact ⟨mid2Units, rfl⟩
    · exact ⟨specialUnits, rfl⟩
  refine ⟨?_, ?_, ?_⟩
  · intro hL
    have hmax : maxBTLOf qb = some 6 :=
      maxBTLOf_const hL (by decide) (by decide) hne
    have hres : resolveBtlRequirements qb = .ok schemeA := by
      unfold resolveBtlRequirements
      rw [hmax]
      simp
    refine ⟨hres, ?_⟩
    have hrun := @runBtlReqs_fixed_missing qb ur "2" 2
      [.fixed "3" 2, .fixed "4" 1, .randomFrom ["1", "5", "6"] 1]
      ⟨[], fun _ => 0, fun _ => 0, qb, tape⟩
      (availByUnitBTL_empty hL (by decide)) rfl (by decide)
    have hsel : selectQuestions qb schemeA ur tape =
        .error "Insufficient questions for BTL 2 (need 2, found 0) in required units" := by
      simp only [selectQuestions, schemeA, hrun]
      rfl
    simp only [generateQuestions]
    rw [if_neg (by omega)]
    simp only [hres, hU, hsel]
  · intro hL
    have hmax : maxBTLOf qb = some 4 :=
      maxBTLOf_const hL (by decide) (by decide) hne
    have hres : resolveBtlRequirements qb = .ok schemeB := by
      unfold resolveBtlRequirements
      rw [hmax]
      simp
    refine ⟨hres, ?_⟩
    have hrun := @runBtlReqs_fixed_missing qb ur "2" 2
      [.fixed "3" 2, .fixed "4" 2]
      ⟨[], fun _ => 0, fun _ => 0, qb, tape⟩
      (availByUnitBTL_empty hL (by decide)) rfl (by decide)
    have hsel : selectQuestions qb schemeB ur tape =
        .error "Insufficient questions for BTL 2 (need 2, found 0) in required units" := by
      simp only [selectQuestions, schemeB, hrun]
      rfl
    simp only [generateQuestions]
    rw [if_neg (by omega)]
    simp only [hres, hU, hsel]
  · intro L btlReqs hL hres hlen1
    constructor
    · intro hL4
      subst hL4
      have hmax : maxBTLOf qb = some 4 :=
        maxBTLOf_const hL (by decide) (by decide) hne
      unfold resolveBtlRequirements at hres
      rw [hmax] at hres
      simp at hres
      subst hres
      simp [schemeB] at hlen1
    · intro hL6
      subst hL6
      have hmax : maxBTLOf qb = some 6 :=
        maxBTLOf_const hL (by decide) (by decide) hne
      unfold resolveBtlRequirements at hres
      rw [hmax] at hres
      simp at hres
      subst hres
      simp [schemeA] at hlen1

/-- Witness for C10 at a concrete all-level-6 bank with paper type `'mid1'`. -/
theorem C10_scheme_precedence_witness :
    resolveBtlRequirements wbank6 = Except.ok schemeA ∧
    generateQuestions (some wbank6) "mid1" [] =
      Except.error "Insufficient questions for BTL 2 (need 2, found 0) in required units" :=
  (C10_scheme_precedence wbank6 "mid1" [] (Or.inl rfl) (by decide)).1 (by decide)

end QPBackend
